import Mathlib

/-!
Shallow embedding of the cache / rate-limiting core of the nestjs-crud
repository.

Conventions of the embedding:
* All times are natural numbers of epoch milliseconds (`Date.now()`).
* The cache (`cache-manager` backed by Redis) is modelled as an association
  list from string keys to entries carrying a value and an absolute expiry
  time in epoch milliseconds; `cacheManager.set(key, value, ms)` stores
  `now + ms` as the expiry and `cacheManager.get` returns `undefined`
  (here: `none`) for missing or expired entries.
* Fallible cache calls are modelled with explicit failure-injection flags:
  a flag set to `true` means that particular network call to the store
  rejects.  A thrown JS exception is an `Except.error`.
* JS truthiness tests on numbers and strings (`if (x)`, `x || y`) are
  translated explicitly: `0` and the empty string are falsy.
-/

set_option autoImplicit false

namespace NestCrud

/-! ### Cache store (cache-manager entries with absolute expiry) -/

structure CacheEntry (α : Type) where
  value : α
  expiresAt : Nat
deriving Repr, DecidableEq

abbrev Store (α : Type) := List (String × CacheEntry α)

/-- The raw entry stored under a key, ignoring expiry. -/
def rawLookup {α : Type} (s : Store α) (k : String) : Option (CacheEntry α) :=
  (s.find? fun p => decide (p.1 = k)).map (fun p => p.2)

/-- The raw counter value stored under a key (0 when absent), ignoring expiry. -/
def rawCount (s : Store Nat) (k : String) : Nat :=
  match rawLookup s k with
  | some e => e.value
  | none => 0

namespace RedisService

/-- `this.defaultTTL = this.configService.get('redis.ttl') || 300` (seconds). -/
def defaultTTL : Nat := 300

/-- Effective TTL in seconds: `(ttl || this.defaultTTL)` — an absent or zero
`ttl` argument falls back to the default (JS falsiness of `0`). -/
def effectiveTTL (ttl : Option Nat) : Nat :=
  match ttl with
  | some t => if t = 0 then defaultTTL else t
  | none => defaultTTL

/-- `RedisService.get`: value for `key`, `none` when missing or expired. -/
def get {α : Type} (s : Store α) (now : Nat) (key : String) : Option α :=
  match rawLookup s key with
  | some e => if now < e.expiresAt then some e.value else none
  | none => none

/-- `RedisService.set`: `cacheManager.set(key, value, (ttl || defaultTTL) * 1000)`,
overwriting any existing entry and resetting its expiry. -/
def set {α : Type} (s : Store α) (now : Nat) (key : String) (value : α)
    (ttl : Option Nat) : Store α :=
  (key, ⟨value, now + effectiveTTL ttl * 1000⟩) ::
    s.filter (fun p => decide (¬ p.1 = key))

/-- `RedisService.del`: remove the entry for `key` (idempotent). -/
def del {α : Type} (s : Store α) (key : String) : Store α :=
  s.filter (fun p => decide (¬ p.1 = key))

/-- `RedisService.incr`: read the current value (`|| 0`), add one, store the
result with the given TTL, return the new value. -/
def incr (s : Store Nat) (now : Nat) (key : String) (ttl : Option Nat) :
    Nat × Store Nat :=
  let current := (get s now key).getD 0
  let newValue := current + 1
  (newValue, set s now key newValue ttl)

end RedisService

/-! Basic store lemmas. -/

theorem rawLookup_cons {α : Type} (p : String × CacheEntry α) (s : Store α)
    (k : String) :
    rawLookup (p :: s) k = if p.1 = k then some p.2 else rawLookup s k := by
  by_cases h : p.1 = k <;> simp [rawLookup, List.find?, h]

theorem rawLookup_filter_ne {α : Type} (s : Store α) (k k' : String)
    (h : k' ≠ k) :
    rawLookup (s.filter (fun p => decide (¬ p.1 = k))) k' = rawLookup s k' := by
  induction s with
  | nil => rfl
  | cons p s ih =>
    by_cases hp : p.1 = k
    · rw [List.filter_cons_of_neg (by simp [hp]), ih, rawLookup_cons,
        if_neg (by rw [hp]; exact fun hx => h hx.symm)]
    · rw [List.filter_cons_of_pos (by simp [hp]), rawLookup_cons,
        rawLookup_cons, ih]

theorem rawLookup_filter_self {α : Type} (s : Store α) (k : String) :
    rawLookup (s.filter (fun p => decide (¬ p.1 = k))) k = none := by
  induction s with
  | nil => rfl
  | cons p s ih =>
    by_cases hp : p.1 = k
    · rw [List.filter_cons_of_neg (by simp [hp]), ih]
    · rw [List.filter_cons_of_pos (by simp [hp]), rawLookup_cons, if_neg hp, ih]

theorem rawLookup_set_self {α : Type} (s : Store α) (now : Nat) (k : String)
    (v : α) (ttl : Option Nat) :
    rawLookup (RedisService.set s now k v ttl) k =
      some ⟨v, now + RedisService.effectiveTTL ttl * 1000⟩ := by
  rw [RedisService.set, rawLookup_cons]
  simp

theorem rawLookup_set_ne {α : Type} (s : Store α) (now : Nat) (k k' : String)
    (v : α) (ttl : Option Nat) (h : k' ≠ k) :
    rawLookup (RedisService.set s now k v ttl) k' = rawLookup s k' := by
  rw [RedisService.set, rawLookup_cons, if_neg (fun hx => h hx.symm),
    rawLookup_filter_ne _ _ _ h]

theorem rawLookup_del_self {α : Type} (s : Store α) (k : String) :
    rawLookup (RedisService.del s k) k = none :=
  rawLookup_filter_self s k

theorem rawLookup_del_ne {α : Type} (s : Store α) (k k' : String) (h : k' ≠ k) :
    rawLookup (RedisService.del s k) k' = rawLookup s k' :=
  rawLookup_filter_ne s k k' h

theorem get_of_rawLookup_none {α : Type} (s : Store α) (now : Nat) (k : String)
    (h : rawLookup s k = none) : RedisService.get s now k = none := by
  simp [RedisService.get, h]

/-! ### Rate-limit guard (`src/common/guards/rate-limit.guard.ts`) -/

/-- `RateLimitOptions` from the guard module.  The two `skip*` flags are
optional booleans that the guard never reads. -/
structure RateLimitOptions where
  windowMs : Nat
  max : Nat
  message : Option String := none
  skipSuccessfulRequests : Option Bool := none
  skipFailedRequests : Option Bool := none
deriving Repr, DecidableEq

/-- The request fields the guard inspects: `request.user?.userId` (a numeric
id; `some 0` models a present-but-falsy id), the `x-forwarded-for` header and
`request.socket?.remoteAddress`. -/
structure RequestWithUser where
  userId : Option Nat
  xForwardedFor : Option String
  remoteAddress : Option String
deriving Repr, DecidableEq

/-- Headers attached on an allowed request (`X-RateLimit-Limit`,
`X-RateLimit-Remaining`, `X-RateLimit-Reset`). -/
structure RateHeaders where
  limit : Nat
  remaining : Int
  reset : Nat
deriving Repr, DecidableEq

/-- Body of the 429 `HttpException` thrown on rate-limit exceedance. -/
structure RateLimitErrorBody where
  success : Bool
  message : String
  error : String
  retryAfter : Nat
deriving Repr, DecidableEq

/-- What the guard produces for a request: `allow` (return `true`, with
headers unless the limiter failed open) or `deny` (the `HttpException`
with its HTTP status and JSON body escaping `canActivate`). -/
inductive GuardOutcome where
  | allow (headers : Option RateHeaders)
  | deny (status : Nat) (body : RateLimitErrorBody)
deriving Repr, DecidableEq

/-- Exceptions thrown inside the guard's `try` block: the 429
`HttpException`, or an error raised by a cache-store call. -/
inductive ThrownError where
  | http (status : Nat) (body : RateLimitErrorBody)
  | cache
deriving Repr, DecidableEq

/-- Result of `canActivate`: the outcome, the cache store afterwards, and
whether the fail-open warning was logged. -/
structure GuardStep where
  outcome : GuardOutcome
  store : Store Nat
  warned : Bool
deriving Repr, DecidableEq

namespace RateLimitGuard

/-- `RateLimitGuard.getIdentifier`.  `if (request.user?.userId)` is a JS
truthiness test, so a present id `0` falls through to the IP branch;
likewise an empty `x-forwarded-for` header or an empty socket address is
falsy. -/
def getIdentifier (r : RequestWithUser) : String :=
  match r.userId with
  | some uid =>
    if uid ≠ 0 then "user:" ++ toString uid
    else ipFallback r
  | none => ipFallback r
where
  /-- `forwarded ? forwarded.split(',')[0] : request.socket?.remoteAddress || 'unknown'` -/
  ipFallback (r : RequestWithUser) : String :=
    let ip :=
      match r.xForwardedFor with
      | some forwarded =>
        if forwarded ≠ "" then (forwarded.splitOn ",").headD forwarded
        else socketAddr r
      | none => socketAddr r
    "ip:" ++ ip
  /-- `request.socket?.remoteAddress || 'unknown'` -/
  socketAddr (r : RequestWithUser) : String :=
    match r.remoteAddress with
    | some a => if a ≠ "" then a else "unknown"
    | none => "unknown"

/-- The window key: `rate_limit:{identifier}:{windowStart}`. -/
def rlKey (identifier : String) (windowStart : Nat) : String :=
  "rate_limit:" ++ identifier ++ ":" ++ toString windowStart

/-- `rateLimitOptions.message || 'Rate limit exceeded. Too many requests.'`
(JS falsiness: an empty custom message also selects the default). -/
def defaultMessage : String := "Rate limit exceeded. Too many requests."

def resolvedMessage (o : RateLimitOptions) : String :=
  match o.message with
  | some m => if m ≠ "" then m else defaultMessage
  | none => defaultMessage

/-- The guard's `try` block (lines 75–107): read the counter, throw the 429
`HttpException` when the limit is reached, otherwise increment the counter
with TTL `Math.ceil(windowMs / 1000)` seconds and compute the headers.
`failGet` / `failIncr` inject a store error into the corresponding call.
Both `Date.now()` reads of one invocation are modelled as the same `now`. -/
def tryBlock (o : RateLimitOptions) (failGet failIncr : Bool)
    (identifier : String) (now : Nat) (s : Store Nat) :
    Except ThrownError (RateHeaders × Store Nat) :=
  let windowStart := now / o.windowMs
  let key := rlKey identifier windowStart
  if failGet then .error .cache else
  let currentCount := (RedisService.get s now key).getD 0
  if o.max ≤ currentCount then
    let resetTime := (windowStart + 1) * o.windowMs
    let retryAfter := (resetTime - now + 999) / 1000
    .error (.http 429 ⟨false, resolvedMessage o, "Rate Limit Exceeded", retryAfter⟩)
  else if failIncr then .error .cache else
  let s' := (RedisService.incr s now key (some ((o.windowMs + 999) / 1000))).2
  let remaining := max 0 ((o.max : Int) - currentCount - 1)
  let resetTime := (windowStart + 1) * o.windowMs
  .ok (⟨o.max, remaining, (resetTime + 999) / 1000⟩, s')

/-- `RateLimitGuard.canActivate`: bypass in the test environment, allow when
no options are attached to the route, otherwise run the `try` block; an
`HttpException` is rethrown, any other error is logged and the request is
allowed (fail open). -/
def canActivate (testEnv : Bool) (opts : Option RateLimitOptions)
    (failGet failIncr : Bool) (r : RequestWithUser) (now : Nat)
    (s : Store Nat) : GuardStep :=
  if testEnv then ⟨.allow none, s, false⟩ else
  match opts with
  | none => ⟨.allow none, s, false⟩
  | some o =>
    match tryBlock o failGet failIncr (getIdentifier r) now s with
    | .ok (headers, s') => ⟨.allow (some headers), s', false⟩
    | .error (.http st body) => ⟨.deny st body, s, false⟩
    | .error .cache => ⟨.allow none, s, true⟩

/-- One request through the guard with no injected store failure and the
route's options attached, outside the test environment. -/
def guardStep (o : RateLimitOptions) (r : RequestWithUser) (now : Nat)
    (s : Store Nat) : GuardOutcome × Store Nat :=
  let g := canActivate false (some o) false false r now s
  (g.outcome, g.store)

/-- Sequential requests by one client at the given times. -/
def runGuard (o : RateLimitOptions) (r : RequestWithUser) :
    List Nat → Store Nat → List GuardOutcome × Store Nat
  | [], s => ([], s)
  | t :: ts, s =>
    let step := guardStep o r t s
    let rest := runGuard o r ts step.2
    (step.1 :: rest.1, rest.2)

end RateLimitGuard

/-! ### Read-through cache layer (product and user controllers)

The persistence layer (Mongoose / TypeORM) is an external collaborator; it
is modelled as a partial map from ids to stored values, and a service
`update` is modelled by the value the write leaves in the store (DTO
merging is glue outside this core).  `buildSuccessResponse` is modelled by
its `success` flag and payload (the timestamp is glue). -/

/-- Errors escaping a controller method: a service `NotFound`-style
exception, or an error raised by an unguarded cache-store call (none of the
cited controller paths wrap their `redisService` calls in `try`/`catch`). -/
inductive AppError where
  | notFound
  | cacheError
deriving Repr, DecidableEq

structure ApiResponse (α : Type) where
  success : Bool
  data : α
deriving Repr, DecidableEq

def buildSuccessResponse {α : Type} (payload : α) : ApiResponse α :=
  ⟨true, payload⟩

namespace ProductController

/-- Detail cache key used by `findOne`/`update`/`remove`: `products:{id}`. -/
def detailKey (id : String) : String := "products:" ++ id

/-- List cache key: `products:all`. -/
def listKey : String := "products:all"

/-- `ProductController.findOne` (lines 109–124): try the cache, on a hit
return the cached product, on a miss read the service, cache the result
with TTL 900 s and return it.  `failGet` injects a store error into the
`redisService.get` call, which no `try`/`catch` intercepts. -/
def findOne {α : Type} (db : String → Option α) (failGet : Bool) (now : Nat)
    (cache : Store α) (id : String) :
    Except AppError (ApiResponse α × Store α) :=
  let cacheKey := detailKey id
  if failGet then .error .cacheError else
  match RedisService.get cache now cacheKey with
  | some cachedProduct => .ok (buildSuccessResponse cachedProduct, cache)
  | none =>
    match db id with
    | none => .error .notFound
    | some product =>
      .ok (buildSuccessResponse product,
        RedisService.set cache now cacheKey product (some 900))

/-- `ProductController.update` (lines 142–153): perform the service write,
then delete `products:{id}` and `products:all`, then respond.  `dto` is the
product value the successful write leaves in the persistence layer.
`failDel1`/`failDel2` inject store errors into the two `del` calls. -/
def update {α : Type} (db : String → Option α) (failDel1 failDel2 : Bool)
    (cache : Store α) (id : String) (dto : α) :
    Except AppError (ApiResponse α × (String → Option α) × Store α) :=
  match db id with
  | none => .error .notFound
  | some _ =>
    let newDb := fun k => if k = id then some dto else db k
    if failDel1 then .error .cacheError else
    let c1 := RedisService.del cache (detailKey id)
    if failDel2 then .error .cacheError else
    .ok (buildSuccessResponse dto, newDb, RedisService.del c1 listKey)

/-- `ProductController.remove` (lines 177–185): service delete, then delete
`products:{id}` and `products:all`, then respond. -/
def remove {α : Type} (db : String → Option α) (cache : Store α)
    (id : String) :
    Except AppError (ApiResponse String × (String → Option α) × Store α) :=
  match db id with
  | none => .error .notFound
  | some _ =>
    let newDb := fun k => if k = id then none else db k
    let c1 := RedisService.del cache (detailKey id)
    .ok (buildSuccessResponse id, newDb, RedisService.del c1 listKey)

/-- `ProductController.create` (lines 60–67): service create, then delete
only `products:all`, then respond.  `newId` is the id the persistence layer
assigns. -/
def create {α : Type} (db : String → Option α) (cache : Store α)
    (newId : String) (dto : α) :
    ApiResponse α × (String → Option α) × Store α :=
  let newDb := fun k => if k = newId then some dto else db k
  (buildSuccessResponse dto, newDb, RedisService.del cache listKey)

end ProductController

namespace UserController

/-- Detail cache key used by `findOne`/`update`/`remove`: `users:{id}`. -/
def detailKey (id : Nat) : String := "users:" ++ toString id

/-- List cache key (also the `@CacheKey` of `findAll`): `users:all`. -/
def listKey : String := "users:all"

/-- `UserController.update`: service write, then delete `users:{id}` and
`users:all`, then respond with the password stripped (password stripping is
glue; `dto` is the safe user value). -/
def update {α : Type} (db : Nat → Option α) (cache : Store α) (id : Nat)
    (dto : α) :
    Except AppError (ApiResponse α × (Nat → Option α) × Store α) :=
  match db id with
  | none => .error .notFound
  | some _ =>
    let newDb := fun k => if k = id then some dto else db k
    let c1 := RedisService.del cache (detailKey id)
    .ok (buildSuccessResponse dto, newDb, RedisService.del c1 listKey)

/-- `UserController.remove`: service delete, then delete `users:{id}` and
`users:all`, then respond. -/
def remove {α : Type} (db : Nat → Option α) (cache : Store α) (id : Nat) :
    Except AppError (ApiResponse Nat × (Nat → Option α) × Store α) :=
  match db id with
  | none => .error .notFound
  | some _ =>
    let newDb := fun k => if k = id then none else db k
    let c1 := RedisService.del cache (detailKey id)
    .ok (buildSuccessResponse id, newDb, RedisService.del c1 listKey)

/-- `UserController.create` (part_031 lines 90–119): service create, email
verification token, verification email, JWT — and **no cache invalidation
at all**: the method performs no `redisService` call, so the cache store is
returned unchanged. -/
def create {α : Type} (db : Nat → Option α) (cache : Store α) (newId : Nat)
    (dto : α) :
    ApiResponse α × (Nat → Option α) × Store α :=
  let newDb := fun k => if k = newId then some dto else db k
  (buildSuccessResponse dto, newDb, cache)

end UserController

/-! ### Guard step lemmas -/

namespace RateLimitGuard

/-- Counter read by the guard at time `t`: the stored value when present and
unexpired, otherwise 0 (`(await this.redisService.get(key)) || 0`). -/
def readCount (s : Store Nat) (t : Nat) (key : String) : Nat :=
  (RedisService.get s t key).getD 0

theorem guardStep_deny (o : RateLimitOptions) (r : RequestWithUser) (t : Nat)
    (s : Store Nat)
    (h : o.max ≤ readCount s t (rlKey (getIdentifier r) (t / o.windowMs))) :
    guardStep o r t s =
      (.deny 429 ⟨false, resolvedMessage o, "Rate Limit Exceeded",
        ((t / o.windowMs + 1) * o.windowMs - t + 999) / 1000⟩, s) := by
  simp [guardStep, canActivate, tryBlock, readCount] at h ⊢
  rw [if_pos h]
  exact ⟨rfl, rfl⟩

theorem guardStep_allow (o : RateLimitOptions) (r : RequestWithUser) (t : Nat)
    (s : Store Nat)
    (h : readCount s t (rlKey (getIdentifier r) (t / o.windowMs)) < o.max) :
    guardStep o r t s =
      (.allow (some ⟨o.max,
          max 0 ((o.max : Int)
            - readCount s t (rlKey (getIdentifier r) (t / o.windowMs)) - 1),
          ((t / o.windowMs + 1) * o.windowMs + 999) / 1000⟩),
        RedisService.set s t (rlKey (getIdentifier r) (t / o.windowMs))
          (readCount s t (rlKey (getIdentifier r) (t / o.windowMs)) + 1)
          (some ((o.windowMs + 999) / 1000))) := by
  simp [guardStep, canActivate, tryBlock, RedisService.incr, readCount] at h ⊢
  rw [if_neg (Nat.not_le.2 h)]
  exact ⟨rfl, rfl⟩

/-- Bounds of the current window: `t / W = w` puts `t` in `[w*W, (w+1)*W)`. -/
theorem window_bounds (W w t : Nat) (hW : 0 < W) (ht : t / W = w) :
    w * W ≤ t ∧ t < (w + 1) * W := by
  constructor
  · calc w * W = t / W * W := by rw [ht]
    _ ≤ t := Nat.div_mul_le_self t W
  · have : t / W < w + 1 := by omega
    exact (Nat.div_lt_iff_lt_mul hW).1 this

/-- Rounding `W` milliseconds up to seconds and back never shrinks it. -/
theorem ceil_seconds_ge (W : Nat) : W ≤ (W + 999) / 1000 * 1000 := by omega

theorem ceil_seconds_pos (W : Nat) (hW : 0 < W) : 0 < (W + 999) / 1000 := by
  omega

/-- Invariant tying the effective counter of a window to the store: either
no entry, or an entry holding the counter whose expiry covers the whole
window `w`. -/
def entryOK (o : RateLimitOptions) (w : Nat) (key : String) (s : Store Nat)
    (c : Nat) : Prop :=
  (c = 0 ∧ rawLookup s key = none) ∨
  (∃ e, rawLookup s key = some ⟨c, e⟩ ∧ (w + 1) * o.windowMs ≤ e)

theorem entryOK_read (o : RateLimitOptions) (w : Nat) (key : String)
    (s : Store Nat) (c : Nat) (hW : 0 < o.windowMs) (t : Nat)
    (ht : t / o.windowMs = w) (h : entryOK o w key s c) :
    readCount s t key = c := by
  rcases h with ⟨hc, hnone⟩ | ⟨e, hsome, he⟩
  · simp [readCount, RedisService.get, hnone, hc]
  · have htw := window_bounds o.windowMs w t hW ht
    have : t < e := lt_of_lt_of_le htw.2 he
    simp [readCount, RedisService.get, hsome, this]

theorem entryOK_after_set (o : RateLimitOptions) (w : Nat) (key : String)
    (s : Store Nat) (v t : Nat) (hW : 0 < o.windowMs)
    (ht : t / o.windowMs = w) :
    entryOK o w key
      (RedisService.set s t key v (some ((o.windowMs + 999) / 1000))) v := by
  refine Or.inr ⟨t + (o.windowMs + 999) / 1000 * 1000, ?_, ?_⟩
  · rw [rawLookup_set_self]
    have hpos : (o.windowMs + 999) / 1000 ≠ 0 := by omega
    simp [RedisService.effectiveTTL, hpos]
  · have htw := window_bounds o.windowMs w t hW ht
    have h1 : (w + 1) * o.windowMs = w * o.windowMs + o.windowMs := by ring
    have h2 := ceil_seconds_ge o.windowMs
    omega

/-- Expected outcome of the `(i+1)`-th sequential request at time `t` of a
window that already held `c` requests when the run started. -/
def outcomeAt (o : RateLimitOptions) (w c i t : Nat) : GuardOutcome :=
  if c + i < o.max then
    .allow (some ⟨o.max, (o.max : Int) - (c + i) - 1,
      ((w + 1) * o.windowMs + 999) / 1000⟩)
  else
    .deny 429 ⟨false, resolvedMessage o, "Rate Limit Exceeded",
      ((w + 1) * o.windowMs - t + 999) / 1000⟩

theorem outcomeAt_shift (o : RateLimitOptions) (w c i t : Nat) :
    outcomeAt o w (c + 1) i t = outcomeAt o w c (i + 1) t := by
  have h : c + 1 + i = c + (i + 1) := by omega
  simp only [outcomeAt, h]
  split
  · simp only [GuardOutcome.allow.injEq, Option.some.injEq, RateHeaders.mk.injEq,
      true_and, and_true]
    push_cast
    ring
  · rfl

theorem outcomeAt_saturated (o : RateLimitOptions) (w c i t : Nat)
    (h : o.max ≤ c) :
    outcomeAt o w c i t =
      .deny 429 ⟨false, resolvedMessage o, "Rate Limit Exceeded",
        ((w + 1) * o.windowMs - t + 999) / 1000⟩ := by
  rw [outcomeAt, if_neg (by omega)]

/-- Full characterization of a sequential run whose requests all fall in
window `w`, starting from a store satisfying `entryOK` with counter `c`. -/
theorem runGuard_spec_aux (o : RateLimitOptions) (r : RequestWithUser)
    (w : Nat) (hW : 0 < o.windowMs) :
    ∀ (ts : List Nat) (s : Store Nat) (c : Nat), c ≤ o.max →
      entryOK o w (rlKey (getIdentifier r) w) s c →
      (∀ t ∈ ts, t / o.windowMs = w) →
      (∀ i t, ts[i]? = some t →
        (runGuard o r ts s).1[i]? = some (outcomeAt o w c i t)) ∧
      entryOK o w (rlKey (getIdentifier r) w) (runGuard o r ts s).2
        (min (c + ts.length) o.max) := by
  intro ts
  induction ts with
  | nil =>
    intro s c hc hok _
    refine ⟨fun i t h => by simp at h, ?_⟩
    simpa [runGuard, Nat.min_eq_left hc] using hok
  | cons t ts ih =>
    intro s c hc hok hts
    have htw : t / o.windowMs = w := hts t (List.mem_cons_self t ts)
    have hread : readCount s t (rlKey (getIdentifier r) w) = c :=
      entryOK_read o w _ s c hW t htw hok
    have hts' : ∀ u ∈ ts, u / o.windowMs = w :=
      fun u hu => hts u (List.mem_cons_of_mem t hu)
    by_cases hcmax : c < o.max
    · -- allowed: counter goes to c + 1
      have hstep := guardStep_allow o r t s (by rw [htw, hread]; exact hcmax)
      rw [htw, hread] at hstep
      have hok' : entryOK o w (rlKey (getIdentifier r) w)
          (guardStep o r t s).2 (c + 1) := by
        rw [hstep]
        exact entryOK_after_set o w _ s (c + 1) t hW htw
      have := ih (guardStep o r t s).2 (c + 1) (by omega) hok' hts'
      refine ⟨?_, ?_⟩
      · intro i u hu
        match i with
        | 0 =>
          simp only [List.getElem?_cons_zero, Option.some.injEq] at hu
          subst hu
          simp only [runGuard, List.getElem?_cons_zero, Option.some.injEq]
          rw [hstep]
          rw [outcomeAt, if_pos (by omega)]
          have hmax : max 0 ((o.max : Int) - c - 1) = (o.max : Int) - c - 1 :=
            max_eq_right (by omega)
          simp [hmax]
        | i + 1 =>
          simp only [List.getElem?_cons_succ] at hu
          simp only [runGuard, List.getElem?_cons_succ]
          rw [this.1 i u hu, outcomeAt_shift]
      · have hlen : c + 1 + ts.length = c + (t :: ts).length := by
          simp [List.length_cons]; omega
        simpa [runGuard, hlen] using this.2
    · -- saturated: denied, store untouched
      have hceq : c = o.max := by omega
      have hstep := guardStep_deny o r t s (by rw [htw, hread]; omega)
      rw [htw] at hstep
      have := ih s c hc hok hts'
      refine ⟨?_, ?_⟩
      · intro i u hu
        match i with
        | 0 =>
          simp only [List.getElem?_cons_zero, Option.some.injEq] at hu
          subst hu
          simp only [runGuard, List.getElem?_cons_zero, Option.some.injEq]
          rw [hstep, outcomeAt_saturated o w c 0 t (by omega)]
        | i + 1 =>
          simp only [List.getElem?_cons_succ] at hu
          simp only [runGuard]
          rw [hstep]
          simp only [List.getElem?_cons_succ]
          rw [this.1 i u hu, outcomeAt_saturated o w c i u (by omega),
            outcomeAt_saturated o w c (i + 1) u (by omega)]
      · have h1 : min (c + ts.length) o.max = o.max := by omega
        have h2 : min (c + (t :: ts).length) o.max = o.max := by
          simp [List.length_cons]; omega
        rw [h2]
        have := this.2
        rw [h1] at this
        simpa [runGuard, hstep] using this

/-! Isolation and invariant helpers. -/

/-- Distinct identifiers yield distinct window keys for the same window. -/
theorem rlKey_ne_of_id_ne (a b : String) (w : Nat) (h : a ≠ b) :
    rlKey a w ≠ rlKey b w := by
  intro he
  apply h
  apply String.ext
  have hd := congrArg String.data he
  simp only [rlKey, String.data_append, List.append_assoc] at hd
  exact List.append_cancel_right (List.append_cancel_left hd)

/-- One guard step only rewrites the key of its own identity and window. -/
theorem guardStep_rawLookup_other (o : RateLimitOptions) (r : RequestWithUser)
    (t : Nat) (s : Store Nat) (k : String)
    (h : k ≠ rlKey (getIdentifier r) (t / o.windowMs)) :
    rawLookup (guardStep o r t s).2 k = rawLookup s k := by
  by_cases hc :
      readCount s t (rlKey (getIdentifier r) (t / o.windowMs)) < o.max
  · rw [guardStep_allow o r t s hc]
    exact rawLookup_set_ne _ _ _ _ _ _ h
  · rw [guardStep_deny o r t s (by omega)]

/-- A whole run inside window `w` leaves every other key untouched. -/
theorem runGuard_rawLookup_other (o : RateLimitOptions) (r : RequestWithUser)
    (w : Nat) (k : String) (h : k ≠ rlKey (getIdentifier r) w) :
    ∀ (ts : List Nat) (s : Store Nat), (∀ t ∈ ts, t / o.windowMs = w) →
      rawLookup (runGuard o r ts s).2 k = rawLookup s k := by
  intro ts
  induction ts with
  | nil => intro s _; rfl
  | cons t ts ih =>
    intro s hts
    have htw : t / o.windowMs = w := hts t (List.mem_cons_self t ts)
    have hts' : ∀ u ∈ ts, u / o.windowMs = w :=
      fun u hu => hts u (List.mem_cons_of_mem t hu)
    simp only [runGuard]
    rw [ih (guardStep o r t s).2 hts',
      guardStep_rawLookup_other o r t s k (by rw [htw]; exact h)]

/-- A run depends on the store only through the raw entry under its own
window key: stores agreeing there produce the same outcomes and stay in
agreement. -/
theorem runGuard_congr_on_key (o : RateLimitOptions) (r : RequestWithUser)
    (w : Nat) :
    ∀ (ts : List Nat) (s s' : Store Nat), (∀ t ∈ ts, t / o.windowMs = w) →
      rawLookup s (rlKey (getIdentifier r) w)
        = rawLookup s' (rlKey (getIdentifier r) w) →
      (runGuard o r ts s).1 = (runGuard o r ts s').1 ∧
      rawLookup (runGuard o r ts s).2 (rlKey (getIdentifier r) w)
        = rawLookup (runGuard o r ts s').2 (rlKey (getIdentifier r) w) := by
  intro ts
  induction ts with
  | nil => intro s s' _ hag; exact ⟨rfl, hag⟩
  | cons t ts ih =>
    intro s s' hts hag
    have htw : t / o.windowMs = w := hts t (List.mem_cons_self t ts)
    have hts' : ∀ u ∈ ts, u / o.windowMs = w :=
      fun u hu => hts u (List.mem_cons_of_mem t hu)
    have hread : readCount s t (rlKey (getIdentifier r) w)
        = readCount s' t (rlKey (getIdentifier r) w) := by
      simp only [readCount, RedisService.get, hag]
    by_cases hc : readCount s t (rlKey (getIdentifier r) w) < o.max
    · have hstep := guardStep_allow o r t s (by rw [htw]; exact hc)
      have hstep' := guardStep_allow o r t s' (by rw [htw, ← hread]; exact hc)
      rw [htw] at hstep hstep'
      have hag' : rawLookup (guardStep o r t s).2 (rlKey (getIdentifier r) w)
          = rawLookup (guardStep o r t s').2 (rlKey (getIdentifier r) w) := by
        rw [hstep, hstep', ← hread, rawLookup_set_self, rawLookup_set_self]
      have := ih (guardStep o r t s).2 (guardStep o r t s').2 hts' hag'
      refine ⟨?_, this.2⟩
      simp only [runGuard]
      rw [this.1, hstep, hstep', hread]
    · have hstep := guardStep_deny o r t s (by rw [htw]; omega)
      have hstep' := guardStep_deny o r t s' (by rw [htw, ← hread]; omega)
      rw [htw] at hstep hstep'
      have := ih s s' hts' hag
      refine ⟨?_, ?_⟩
      · simp only [runGuard]
        rw [hstep, hstep', this.1]
      · simp only [runGuard]
        rw [hstep, hstep']
        exact this.2

/-- One guard step keeps every raw window counter of this identity at or
below the configured maximum. -/
theorem guardStep_rawCount_le (o : RateLimitOptions) (r : RequestWithUser)
    (t : Nat) (s : Store Nat)
    (h : ∀ w', rawCount s (rlKey (getIdentifier r) w') ≤ o.max) :
    ∀ w', rawCount (guardStep o r t s).2 (rlKey (getIdentifier r) w')
      ≤ o.max := by
  intro w'
  by_cases hc :
      readCount s t (rlKey (getIdentifier r) (t / o.windowMs)) < o.max
  · rw [guardStep_allow o r t s hc]
    by_cases hk : rlKey (getIdentifier r) w'
        = rlKey (getIdentifier r) (t / o.windowMs)
    · rw [rawCount, hk, rawLookup_set_self]
      change readCount s t (rlKey (getIdentifier r) (t / o.windowMs)) + 1
        ≤ o.max
      omega
    · rw [rawCount, rawLookup_set_ne _ _ _ _ _ _ hk]
      exact h w'
  · rw [guardStep_deny o r t s (by omega)]
    exact h w'

end RateLimitGuard

/-! ### Claim theorems -/

open RateLimitGuard

/-- Claim C1, amended: for every policy with windowMs = W > 0 and max = N > 0
and a fixed identity whose requests all fall in window `w` and run
sequentially from a window with no counter entry, the first N requests are
allowed and every further request is denied with HTTP 429 whose retryAfter
equals ceil((windowEnd - now) / 1000) for windowEnd = (w+1)·W, a value that
is at least 1 and at most ceil(W / 1000) (the claim's bound W / 1000 fails
when W is not a multiple of 1000, see the counterexample). -/
theorem rateLimit_window_boundary (o : RateLimitOptions) (r : RequestWithUser)
    (w : Nat) (ts : List Nat) (s0 : Store Nat)
    (hW : 0 < o.windowMs) (hN : 0 < o.max)
    (hts : ∀ t ∈ ts, t / o.windowMs = w)
    (h0 : rawLookup s0 (rlKey (getIdentifier r) w) = none) :
    ∀ i t, ts[i]? = some t →
      (i < o.max →
        ∃ h : RateHeaders,
          (runGuard o r ts s0).1[i]? = some (.allow (some h))) ∧
      (o.max ≤ i →
        (runGuard o r ts s0).1[i]? =
          some (.deny 429 ⟨false, resolvedMessage o, "Rate Limit Exceeded",
            ((w + 1) * o.windowMs - t + 999) / 1000⟩) ∧
        1 ≤ ((w + 1) * o.windowMs - t + 999) / 1000 ∧
        ((w + 1) * o.windowMs - t + 999) / 1000 ≤ (o.windowMs + 999) / 1000) := by
  have aux := runGuard_spec_aux o r w hW ts s0 0 (by omega)
    (Or.inl ⟨rfl, h0⟩) hts
  intro i t ht
  have hout := aux.1 i t ht
  constructor
  · intro hi
    exact ⟨⟨o.max, (o.max : Int) - ((0 + i : Nat) : Int) - 1,
      ((w + 1) * o.windowMs + 999) / 1000⟩, by
        rw [hout, outcomeAt, if_pos (by omega)]
        push_cast
        ring_nf⟩
  · intro hi
    have htww : t / o.windowMs = w := hts t (List.getElem?_mem ht)
    have hb := window_bounds o.windowMs w t hW htww
    have hsum : (w + 1) * o.windowMs = w * o.windowMs + o.windowMs := by ring
    refine ⟨?_, by omega, by omega⟩
    rw [hout, outcomeAt, if_neg (by omega)]

/-- Claim C1 counterexample: with policy windowMs = 1500, max = 1 and two
requests at time 0 by user 1, the second request is denied with
retryAfter = 2, which exceeds W / 1000 both as natural division
(1500 / 1000 = 1) and as the rational 1500/1000 = 3/2; so "at most W/1000"
fails for a window size that is not a multiple of 1000. -/
theorem rateLimit_retryAfter_exceeds_claimed_bound :
    (runGuard ⟨1500, 1, none, none, none⟩ ⟨some 1, none, none⟩
        [0, 0] []).1[1]? =
      some (.deny 429 ⟨false, defaultMessage, "Rate Limit Exceeded", 2⟩) ∧
    ¬ (2 ≤ 1500 / 1000) ∧ ¬ ((2 : ℚ) ≤ 1500 / 1000) := by
  refine ⟨by decide, by decide, by norm_num⟩

/-- Claim C1 witness: policy windowMs = 1000, max = 2, user 1, four requests
at times 0,1,2,3 of window 0: the fourth request (index 3) is denied with
retryAfter 1, within the amended bounds. -/
theorem rateLimit_window_boundary_witness :
    (runGuard ⟨1000, 2, none, none, none⟩ ⟨some 1, none, none⟩
        [0, 1, 2, 3] []).1[3]? =
      some (.deny 429 ⟨false, defaultMessage, "Rate Limit Exceeded", 1⟩) ∧
    1 ≤ 1 ∧ 1 ≤ (1000 + 999) / 1000 := by
  have h := rateLimit_window_boundary ⟨1000, 2, none, none, none⟩
    ⟨some 1, none, none⟩ 0 [0, 1, 2, 3] [] (by decide) (by decide)
    (by decide) rfl 3 3 (by decide)
  have h2 := (h.2 (by decide)).1
  exact ⟨h2, by decide, by decide⟩

/-- Claim C2: on every allowed request of a sequential same-window run from
a fresh window, X-RateLimit-Limit is the policy max, X-RateLimit-Remaining
is max minus the number of requests so far in the window (the count
including the current request), strictly decreasing by one per allowed
request and never negative, and X-RateLimit-Reset is the epoch second at
which the window ends (the window end in milliseconds divided by 1000,
rounded up). -/
theorem rateLimit_headers_correct (o : RateLimitOptions) (r : RequestWithUser)
    (w : Nat) (ts : List Nat) (s0 : Store Nat)
    (hW : 0 < o.windowMs)
    (hts : ∀ t ∈ ts, t / o.windowMs = w)
    (h0 : rawLookup s0 (rlKey (getIdentifier r) w) = none) :
    (∀ i t, ts[i]? = some t → i < o.max →
      (runGuard o r ts s0).1[i]? =
        some (.allow (some ⟨o.max, (o.max : Int) - (i + 1),
          ((w + 1) * o.windowMs + 999) / 1000⟩)) ∧
      0 ≤ (o.max : Int) - (i + 1)) ∧
    (∀ i t t', ts[i]? = some t → ts[i + 1]? = some t' → i + 1 < o.max →
      ∃ h h' : RateHeaders,
        (runGuard o r ts s0).1[i]? = some (.allow (some h)) ∧
        (runGuard o r ts s0).1[i + 1]? = some (.allow (some h')) ∧
        h'.remaining = h.remaining - 1 ∧ h.limit = o.max ∧
        h'.limit = o.max) := by
  have aux := runGuard_spec_aux o r w hW ts s0 0 (by omega)
    (Or.inl ⟨rfl, h0⟩) hts
  have key : ∀ i t, ts[i]? = some t → i < o.max →
      (runGuard o r ts s0).1[i]? =
        some (.allow (some ⟨o.max, (o.max : Int) - (i + 1),
          ((w + 1) * o.windowMs + 999) / 1000⟩)) := by
    intro i t ht hi
    rw [aux.1 i t ht, outcomeAt, if_pos (by omega)]
    simp only [Option.some.injEq, GuardOutcome.allow.injEq, RateHeaders.mk.injEq,
      true_and, and_true]
    push_cast
    ring
  refine ⟨fun i t ht hi => ⟨key i t ht hi, ?_⟩, ?_⟩
  · omega
  · intro i t t' ht ht' hi
    refine ⟨⟨o.max, (o.max : Int) - (i + 1), ((w + 1) * o.windowMs + 999) / 1000⟩,
      ⟨o.max, (o.max : Int) - (i + 1 + 1), ((w + 1) * o.windowMs + 999) / 1000⟩,
      key i t ht (by omega), key (i + 1) t' ht' hi, by push_cast; ring, rfl, rfl⟩

/-- Claim C2 witness: policy windowMs = 1000, max = 3, user 2, requests at
times 0 and 5 of window 0: remaining is 2 then 1, limit 3, reset 1. -/
theorem rateLimit_headers_correct_witness :
    (runGuard ⟨1000, 3, none, none, none⟩ ⟨some 2, none, none⟩
        [0, 5] []).1[0]? = some (.allow (some ⟨3, 2, 1⟩)) ∧
    (runGuard ⟨1000, 3, none, none, none⟩ ⟨some 2, none, none⟩
        [0, 5] []).1[1]? = some (.allow (some ⟨3, 1, 1⟩)) := by
  have h := rateLimit_headers_correct ⟨1000, 3, none, none, none⟩
    ⟨some 2, none, none⟩ 0 [0, 5] [] (by decide) (by decide) rfl
  have h0 := (h.1 0 0 (by decide) (by decide)).1
  have h1 := (h.1 1 5 (by decide) (by decide)).1
  constructor
  · rw [h0]; decide
  · rw [h1]; decide

/-- Claim C3: whenever a cache call of the check/increment path raises an
error (the `get` rejects, or the `incr` rejects — which can only be reached
when the count is below the limit, since the 429 is thrown first), the guard
catches it, logs the warning and returns `true` with the store untouched;
no error escapes `canActivate`, whose result type carries no error case
other than the rate-limit denial itself. -/
theorem rateLimit_fail_open (o : RateLimitOptions) (r : RequestWithUser)
    (now : Nat) (s : Store Nat) (failGet failIncr : Bool)
    (h : failGet = true ∨ (failIncr = true ∧
      readCount s now (rlKey (getIdentifier r) (now / o.windowMs)) < o.max)) :
    canActivate false (some o) failGet failIncr r now s =
      ⟨.allow none, s, true⟩ := by
  rcases h with h | ⟨hfi, hc⟩
  · subst h
    simp [canActivate, tryBlock]
  · subst hfi
    by_cases hg : failGet = true
    · subst hg
      simp [canActivate, tryBlock]
    · have hg' : failGet = false := by
        cases failGet
        · rfl
        · exact absurd rfl hg
      subst hg'
      simp only [readCount] at hc
      simp [canActivate, tryBlock, Nat.not_le.2 hc]

/-- Claim C3 witness: with the `get` call failing, a request by user 3 at
time 0 under policy windowMs = 1000, max = 1 is allowed with no headers,
the store untouched and the warning logged. -/
theorem rateLimit_fail_open_witness :
    canActivate false (some ⟨1000, 1, none, none, none⟩) true false
        ⟨some 3, none, none⟩ 0 [] =
      ⟨.allow none, [], true⟩ :=
  rateLimit_fail_open ⟨1000, 1, none, none, none⟩ ⟨some 3, none, none⟩ 0 []
    true false (Or.inl rfl)

/-- Claim C7: two requests resolving to distinct identities never share a
window key: for any window `w`, any run of the first identity at times in
`w` leaves the raw cache entry under the second identity's window key
unchanged, and the second identity's subsequent run (also in `w`) produces
exactly the allow/deny outcomes it would have produced on the original
store — in particular a saturated first identity does not affect the
second. -/
theorem rateLimit_identity_isolation (o : RateLimitOptions)
    (r1 r2 : RequestWithUser) (w : Nat) (ts us : List Nat) (s : Store Nat)
    (hid : getIdentifier r1 ≠ getIdentifier r2)
    (hts : ∀ t ∈ ts, t / o.windowMs = w)
    (hus : ∀ u ∈ us, u / o.windowMs = w) :
    rlKey (getIdentifier r1) w ≠ rlKey (getIdentifier r2) w ∧
    rawLookup (runGuard o r1 ts s).2 (rlKey (getIdentifier r2) w) =
      rawLookup s (rlKey (getIdentifier r2) w) ∧
    (runGuard o r2 us (runGuard o r1 ts s).2).1 =
      (runGuard o r2 us s).1 := by
  have hkey := rlKey_ne_of_id_ne _ _ w hid
  have hpres := runGuard_rawLookup_other o r1 w
    (rlKey (getIdentifier r2) w) (Ne.symm hkey) ts s hts
  exact ⟨hkey, hpres,
    (runGuard_congr_on_key o r2 w us (runGuard o r1 ts s).2 s hus hpres).1⟩

/-- Claim C7 witness: user 1 saturates windowMs = 1000, max = 1 with three
requests; user 2's next request in the same window is still allowed and
user 2's counter entry is still absent. -/
theorem rateLimit_identity_isolation_witness :
    rlKey "user:1" 0 ≠ rlKey "user:2" 0 ∧
    rawLookup (runGuard ⟨1000, 1, none, none, none⟩ ⟨some 1, none, none⟩
        [0, 0, 0] []).2 (rlKey "user:2" 0) = none ∧
    (runGuard ⟨1000, 1, none, none, none⟩ ⟨some 2, none, none⟩ [4]
        (runGuard ⟨1000, 1, none, none, none⟩ ⟨some 1, none, none⟩
          [0, 0, 0] []).2).1 =
      (runGuard ⟨1000, 1, none, none, none⟩ ⟨some 2, none, none⟩ [4] []).1 := by
  have h := rateLimit_identity_isolation ⟨1000, 1, none, none, none⟩
    ⟨some 1, none, none⟩ ⟨some 2, none, none⟩ 0 [0, 0, 0] [4] []
    (by decide) (by decide) (by decide)
  exact ⟨h.1, h.2.1, h.2.2⟩

/-- Claim C9: under sequential execution the raw counter stored for any of
the identity's window keys never exceeds the policy max (starting from a
store where those counters are within the limit, e.g. absent); a denied
request leaves the store untouched, and a request is counted — the counter
becomes the read value plus one — only when the check passed. -/
theorem rateLimit_counter_bounded (o : RateLimitOptions)
    (r : RequestWithUser) (ts : List Nat) (s0 : Store Nat)
    (h0 : ∀ w', rawCount s0 (rlKey (getIdentifier r) w') ≤ o.max) :
    (∀ w', rawCount (runGuard o r ts s0).2 (rlKey (getIdentifier r) w')
      ≤ o.max) ∧
    (∀ t s, o.max ≤ readCount s t (rlKey (getIdentifier r) (t / o.windowMs)) →
      (guardStep o r t s).2 = s) ∧
    (∀ t s, readCount s t (rlKey (getIdentifier r) (t / o.windowMs)) < o.max →
      rawCount (guardStep o r t s).2
          (rlKey (getIdentifier r) (t / o.windowMs))
        = readCount s t (rlKey (getIdentifier r) (t / o.windowMs)) + 1) := by
  refine ⟨?_, ?_, ?_⟩
  · induction ts generalizing s0 with
    | nil => exact h0
    | cons t ts ih =>
      exact ih (guardStep o r t s0).2 (guardStep_rawCount_le o r t s0 h0)
  · intro t s h
    rw [guardStep_deny o r t s h]
  · intro t s h
    rw [guardStep_allow o r t s h, rawCount, rawLookup_set_self]

/-- Claim C9 witness: user 4, policy windowMs = 1000, max = 2, five requests
at time 0 from the empty store: every window counter stays at most 2. -/
theorem rateLimit_counter_bounded_witness :
    rawCount (runGuard ⟨1000, 2, none, none, none⟩ ⟨some 4, none, none⟩
        [0, 0, 0, 0, 0] []).2 (rlKey "user:4" 0) ≤ 2 :=
  (rateLimit_counter_bounded ⟨1000, 2, none, none, none⟩ ⟨some 4, none, none⟩
      [0, 0, 0, 0, 0] [] (fun w' => by rw [rawCount]; simp [rawLookup])).1 0

/-- Claim C10: the `skipSuccessfulRequests` and `skipFailedRequests` fields
of `RateLimitOptions` are never read: `canActivate` is unchanged under any
values of the two flags, for every environment, failure injection, request,
time and store; and on every allowed request the counter is already
incremented by the guard itself — before the route handler runs — to the
read count plus one (no code path ever decrements it afterwards). -/
theorem rateLimit_skip_options_unused :
    (∀ (o : RateLimitOptions) (b1 b2 : Option Bool) (te fg fi : Bool)
        (r : RequestWithUser) (now : Nat) (s : Store Nat),
      canActivate te (some { o with
          skipSuccessfulRequests := b1, skipFailedRequests := b2 }) fg fi r now s
        = canActivate te (some o) fg fi r now s) ∧
    (∀ (o : RateLimitOptions) (r : RequestWithUser) (now : Nat)
        (s : Store Nat),
      readCount s now (rlKey (getIdentifier r) (now / o.windowMs)) < o.max →
      (guardStep o r now s).1 =
        .allow (some ⟨o.max,
          max 0 ((o.max : Int)
            - readCount s now (rlKey (getIdentifier r) (now / o.windowMs)) - 1),
          ((now / o.windowMs + 1) * o.windowMs + 999) / 1000⟩) ∧
      rawCount (guardStep o r now s).2
          (rlKey (getIdentifier r) (now / o.windowMs))
        = readCount s now (rlKey (getIdentifier r) (now / o.windowMs)) + 1) := by
  refine ⟨fun o b1 b2 te fg fi r now s => rfl, ?_⟩
  intro o r now s h
  rw [guardStep_allow o r now s h]
  exact ⟨rfl, by rw [rawCount, rawLookup_set_self]⟩

/-- Identity resolution as Claim C6 words it: a present numeric user id
always wins; otherwise the first entry of the proxy header if the header is
present, else the raw socket address if present, else "unknown". -/
def claimIdentifier (r : RequestWithUser) : String :=
  match r.userId with
  | some uid => "user:" ++ toString uid
  | none =>
    match r.xForwardedFor with
    | some forwarded => "ip:" ++ (forwarded.splitOn ",").headD forwarded
    | none =>
      match r.remoteAddress with
      | some a => "ip:" ++ a
      | none => "ip:" ++ "unknown"

/-- Identity resolution as amended: the user branch requires a nonzero user
id, the proxy header is used only when present and nonempty, the socket
address only when present and nonempty (JS truthiness), else "unknown". -/
def amendedIdentifier (r : RequestWithUser) : String :=
  match r.userId with
  | some uid =>
    if uid = 0 then "ip:" ++ amendedAddr r else "user:" ++ toString uid
  | none => "ip:" ++ amendedAddr r
where
  amendedAddr (r : RequestWithUser) : String :=
    match r.xForwardedFor with
    | some f => if f = "" then amendedSocket r else (f.splitOn ",").headD f
    | none => amendedSocket r
  amendedSocket (r : RequestWithUser) : String :=
    match r.remoteAddress with
    | some a => if a = "" then "unknown" else a
    | none => "unknown"

/-- Claim C6 counterexample: a request carrying the authenticated principal
with the numeric user id 0 and socket address 1.2.3.4 resolves to
"ip:1.2.3.4", not "user:0" as the claimed precedence requires —
`if (request.user?.userId)` is a JS truthiness test and 0 is falsy. -/
theorem rateLimit_identifier_zero_userId_uses_ip :
    getIdentifier ⟨some 0, none, some "1.2.3.4"⟩ = "ip:1.2.3.4" ∧
    claimIdentifier ⟨some 0, none, some "1.2.3.4"⟩ = "user:0" ∧
    getIdentifier ⟨some 0, none, some "1.2.3.4"⟩ ≠
      claimIdentifier ⟨some 0, none, some "1.2.3.4"⟩ := by
  refine ⟨rfl, rfl, by decide⟩

/-- Claim C6, amended: for every request the guard's identity equals the
amended precedence — `user:{id}` when a nonzero numeric user id is present;
otherwise `ip:{addr}` where addr is the first comma-separated entry of the
`x-forwarded-for` header when the header is present and nonempty, else the
socket address when present and nonempty, else the literal "unknown". -/
theorem rateLimit_identifier_precedence (r : RequestWithUser) :
    getIdentifier r = amendedIdentifier r := by
  rcases r with ⟨uid, fwd, addr⟩
  have haddr : ∀ x : RequestWithUser,
      getIdentifier.ipFallback x = "ip:" ++ amendedIdentifier.amendedAddr x := by
    intro x
    rcases x with ⟨u, f, a⟩
    cases f with
    | none =>
      cases a with
      | none => rfl
      | some a0 =>
        by_cases ha : a0 = "" <;>
          simp [getIdentifier.ipFallback, getIdentifier.socketAddr,
            amendedIdentifier.amendedAddr, amendedIdentifier.amendedSocket, ha]
    | some f0 =>
      by_cases hf : f0 = ""
      · cases a with
        | none =>
          simp [getIdentifier.ipFallback, getIdentifier.socketAddr,
            amendedIdentifier.amendedAddr, amendedIdentifier.amendedSocket, hf]
        | some a0 =>
          by_cases ha : a0 = "" <;>
            simp [getIdentifier.ipFallback, getIdentifier.socketAddr,
              amendedIdentifier.amendedAddr, amendedIdentifier.amendedSocket,
              hf, ha]
      · simp [getIdentifier.ipFallback, amendedIdentifier.amendedAddr, hf]
  cases uid with
  | none =>
    rw [getIdentifier, amendedIdentifier]
    exact haddr ⟨none, fwd, addr⟩
  | some u =>
    by_cases hu : u = 0
    · rw [getIdentifier, amendedIdentifier]
      simp only [hu, ne_eq, not_true_eq_false, if_false, if_pos rfl,
        reduceIte]
      exact haddr ⟨some 0, fwd, addr⟩
    · rw [getIdentifier, amendedIdentifier]
      simp [hu]

/-- Claim C8, amended: the window's cache entry is created by the first
request of the window with counter 1 and a TTL of ceil(windowMs/1000)
seconds measured from that request's time (not from the window start); each
subsequent allowed request in the window increments the counter and resets
the TTL from its own time; a denied request leaves the entry untouched; and
once the expiry time is reached the entry reads as absent.  The expiry can
therefore lie past the window's end — the claim's "never extends past the
window's end" fails, see the counterexample — harmlessly, since later
windows use a different key. -/
theorem rateLimit_window_entry_lifecycle (o : RateLimitOptions)
    (r : RequestWithUser) (w t1 t2 : Nat) (s0 : Store Nat)
    (hW : 0 < o.windowMs)
    (h1 : t1 / o.windowMs = w) (h2 : t2 / o.windowMs = w)
    (h0 : rawLookup s0 (rlKey (getIdentifier r) w) = none) :
    (0 < o.max →
      rawLookup (guardStep o r t1 s0).2 (rlKey (getIdentifier r) w)
        = some ⟨1, t1 + (o.windowMs + 999) / 1000 * 1000⟩) ∧
    (1 < o.max →
      rawLookup (guardStep o r t2 (guardStep o r t1 s0).2).2
          (rlKey (getIdentifier r) w)
        = some ⟨2, t2 + (o.windowMs + 999) / 1000 * 1000⟩) ∧
    (o.max = 1 →
      (guardStep o r t2 (guardStep o r t1 s0).2).2 = (guardStep o r t1 s0).2) ∧
    (∀ (s : Store Nat) (u : Nat) (e : CacheEntry Nat),
      rawLookup s (rlKey (getIdentifier r) w) = some e → e.expiresAt ≤ u →
      RedisService.get s u (rlKey (getIdentifier r) w) = none) := by
  have hpos : (o.windowMs + 999) / 1000 ≠ 0 := by omega
  have hread0 : readCount s0 t1 (rlKey (getIdentifier r) w) = 0 :=
    entryOK_read o w _ s0 0 hW t1 h1 (Or.inl ⟨rfl, h0⟩)
  refine ⟨?_, ?_, ?_, ?_⟩
  · intro hmax
    have hstep := guardStep_allow o r t1 s0 (by rw [h1, hread0]; omega)
    rw [h1, hread0] at hstep
    rw [hstep, rawLookup_set_self]
    simp [RedisService.effectiveTTL, hpos]
  · intro hmax
    have hstep := guardStep_allow o r t1 s0 (by rw [h1, hread0]; omega)
    rw [h1, hread0] at hstep
    have hok1 : entryOK o w (rlKey (getIdentifier r) w)
        (guardStep o r t1 s0).2 1 := by
      rw [hstep]
      exact entryOK_after_set o w _ s0 1 t1 hW h1
    have hread1 : readCount (guardStep o r t1 s0).2 t2
        (rlKey (getIdentifier r) w) = 1 :=
      entryOK_read o w _ _ 1 hW t2 h2 hok1
    have hstep2 := guardStep_allow o r t2 (guardStep o r t1 s0).2
      (by rw [h2, hread1]; omega)
    rw [h2, hread1] at hstep2
    rw [hstep2, rawLookup_set_self]
    simp [RedisService.effectiveTTL, hpos]
  · intro hmax
    have hstep := guardStep_allow o r t1 s0 (by rw [h1, hread0]; omega)
    rw [h1, hread0] at hstep
    have hok1 : entryOK o w (rlKey (getIdentifier r) w)
        (guardStep o r t1 s0).2 1 := by
      rw [hstep]
      exact entryOK_after_set o w _ s0 1 t1 hW h1
    have hread1 : readCount (guardStep o r t1 s0).2 t2
        (rlKey (getIdentifier r) w) = 1 :=
      entryOK_read o w _ _ 1 hW t2 h2 hok1
    have hstep2 := guardStep_deny o r t2 (guardStep o r t1 s0).2
      (by rw [h2, hread1]; omega)
    rw [hstep2]
  · intro s u e hsome hu
    simp only [RedisService.get, hsome]
    rw [if_neg (by omega)]

/-- Claim C8 counterexample: policy windowMs = 60000, max = 5, first request
of window 0 at time 30000 (mid-window) by user 7: the entry is created with
expiry 90000 epoch ms, while the window ends at 60000 — the entry's
time-to-live extends 30 s past the window's end. -/
theorem rateLimit_ttl_extends_past_window_end :
    rawLookup (guardStep ⟨60000, 5, none, none, none⟩ ⟨some 7, none, none⟩
        30000 []).2 (rlKey "user:7" 0) = some ⟨1, 90000⟩ ∧
    (0 + 1) * 60000 = 60000 ∧ ¬ ((90000 : Nat) ≤ 60000) := by
  refine ⟨by decide, rfl, by decide⟩

/-- Claim C8 witness: policy windowMs = 60000, max = 5, requests at times 0
and 10000 of window 0: after the second request the entry holds counter 2
with expiry 70000 (TTL reset from the second request's time). -/
theorem rateLimit_window_entry_lifecycle_witness :
    rawLookup (guardStep ⟨60000, 5, none, none, none⟩ ⟨some 8, none, none⟩
        10000 (guardStep ⟨60000, 5, none, none, none⟩ ⟨some 8, none, none⟩
          0 []).2).2 (rlKey "user:8" 0) = some ⟨2, 70000⟩ := by
  have h := rateLimit_window_entry_lifecycle ⟨60000, 5, none, none, none⟩
    ⟨some 8, none, none⟩ 0 0 10000 [] (by decide) (by decide) (by decide) rfl
  exact h.2.1 (by decide)

/-- Claim C4 evaluation (code bug): the controller wraps no cache call in
`try`/`catch`, so (1) a store error on the `get` of a detail read makes
`findOne` fail with the cache error instead of falling through to the
persistence layer, although (2) without the error the same read returns the
persisted value 42 and caches it; and (3) a store error on the first
invalidation `del` of `update` makes the request fail after the persistence
write already succeeded, instead of returning the write's response. -/
theorem productRead_cache_error_propagates :
    ProductController.findOne (fun _ => some (42 : Nat)) true 0 [] "1"
      = .error .cacheError ∧
    ProductController.findOne (fun _ => some (42 : Nat)) false 0 [] "1"
      = .ok (⟨true, 42⟩, [("products:1", ⟨42, 900000⟩)]) ∧
    ProductController.update (fun _ => some (42 : Nat)) true false [] "1" 43
      = .error .cacheError := by
  refine ⟨rfl, rfl, rfl⟩

/-- Claim C5 evaluation (code bug): `UserController.create` performs no
cache invalidation: creating user 1 over a store caching the users list
leaves the `users:all` entry intact, so a later list read still gets the
stale 99 payload — while `UserController.update` and `ProductController`'s
mutating paths do delete their list key as the claim states. -/
theorem userCreate_skips_list_invalidation :
    (UserController.create (fun _ => none) [("users:all", ⟨99, 1000000⟩)]
        1 (7 : Nat)).2.2 = [("users:all", ⟨99, 1000000⟩)] ∧
    RedisService.get (UserController.create (fun _ => none)
        [("users:all", ⟨99, 1000000⟩)] 1 (7 : Nat)).2.2 500 "users:all"
      = some 99 ∧
    ((UserController.update (fun _ => some (5 : Nat))
        [("users:all", ⟨99, 1000000⟩)] 1 6).map
      (fun res => rawLookup res.2.2 "users:all")) = .ok none ∧
    ((ProductController.update (fun _ => some (5 : Nat)) false false
        [("products:all", ⟨99, 1000000⟩)] "1" 6).map
      (fun res => rawLookup res.2.2 "products:all")) = .ok none := by
  refine ⟨rfl, by decide, rfl, rfl⟩

end NestCrud
